import Mathlib

/-!
Verification of the GoPix batch image converter against its specification.

The Go sources are shallowly embedded: the filesystem is an association
list from paths to entries (a readable file with size and modification
time, or a permission-denied entry), the conversion cache is an
association list keyed by the cache-key string, and every operation of
`internal/converter/convert.go`, `internal/stats` and
`internal/validator` is translated into an executable Lean function that
additionally returns the list of side effects it performed (codec
invocations, file writes and removals, cache stores and deletions).
Machine integers are modelled as Nat/Int with explicit reduction mod 2^w
where Go wraps; Go float64 arithmetic on sizes and scale factors is
modelled over Rat; time.Time values are modelled as integer timestamps.
The external vips codec is an explicit parameter (a pair of possibly
failing functions for decoding and encoding), per the codec contract of
the spec.
-/

namespace GoPix

/-- Go error values. Each `errors.New` sentinel of the program
(internal/errors) and of the os/fs packages gets its own constructor so
that the identity comparison done by `errors.Is` is modelled exactly;
`mk` covers other error values, and `wrap` / `wrap2` model
`fmt.Errorf` with one or two `%w` verbs. -/
inductive GoErr where
  | errCorruptedImage : GoErr
  | errUnsupportedFormat : GoErr
  | errPermissionDenied : GoErr
  | errSourceNotFound : GoErr
  | errFatal : GoErr
  | fsErrPermission : GoErr
  | fsErrNotExist : GoErr
  | mk (msg : String) : GoErr
  | wrap (msg : String) (inner : GoErr) : GoErr
  | wrap2 (msg : String) (inner1 inner2 : GoErr) : GoErr
deriving DecidableEq

/-- Go `errors.Is`: compares with the target along the unwrap chain. -/
def errorsIs : GoErr → GoErr → Bool
  | GoErr.wrap m inner, t => GoErr.wrap m inner == t || errorsIs inner t
  | GoErr.wrap2 m a b, t => GoErr.wrap2 m a b == t || errorsIs a t || errorsIs b t
  | e, t => e == t

/-- File metadata as returned by os.Stat. -/
structure FileInfo where
  size : Int
  modTime : Int
deriving DecidableEq

/-- A filesystem entry: a readable file, or one whose metadata cannot be
read for lack of permission. -/
inductive FsEntry where
  | file (info : FileInfo) : FsEntry
  | permDenied : FsEntry
deriving DecidableEq

/-- The filesystem: an association list from paths to entries. -/
abbrev FileSys := List (String × FsEntry)

def fsLookup : FileSys → String → Option FsEntry
  | [], _ => none
  | (q, e) :: rest, p => if q = p then some e else fsLookup rest p

/-- Create or overwrite a readable file. -/
def fsSet : FileSys → String → FileInfo → FileSys
  | [], p, info => [(p, FsEntry.file info)]
  | (q, e) :: rest, p, info =>
      if q = p then (p, FsEntry.file info) :: rest else (q, e) :: fsSet rest p info

def fsErase (fs : FileSys) (p : String) : FileSys :=
  fs.filter (fun kv => !(kv.1 == p))

/-- os.Stat: a not-found or permission failure is a *PathError wrapping
the corresponding fs sentinel error. -/
def osStat (fs : FileSys) (p : String) : Except GoErr FileInfo :=
  match fsLookup fs p with
  | none => Except.error (GoErr.wrap "stat" GoErr.fsErrNotExist)
  | some FsEntry.permDenied => Except.error (GoErr.wrap "stat" GoErr.fsErrPermission)
  | some (FsEntry.file info) => Except.ok info

/-- os.WriteFile: fails on a permission-denied target, otherwise creates
or replaces the file, stamping the current time. -/
def fsWriteFile (fs : FileSys) (p : String) (size : Int) (now : Int) : Except GoErr FileSys :=
  match fsLookup fs p with
  | some FsEntry.permDenied => Except.error (GoErr.wrap "open" GoErr.fsErrPermission)
  | _ => Except.ok (fsSet fs p { size := size, modTime := now })

/-- os.Remove. -/
def fsRemoveFile (fs : FileSys) (p : String) : Except GoErr FileSys :=
  match fsLookup fs p with
  | none => Except.error (GoErr.wrap "remove" GoErr.fsErrNotExist)
  | some FsEntry.permDenied => Except.error (GoErr.wrap "remove" GoErr.fsErrPermission)
  | some (FsEntry.file _) => Except.ok (fsErase fs p)

/-- ASCII lower-casing of one character (what strings.ToLower does on the
ASCII format and extension strings the program feeds it). -/
def charToLower (c : Char) : Char :=
  if 'A' ≤ c ∧ c ≤ 'Z' then Char.ofNat (c.toNat + 32) else c

/-- strings.ToLower. -/
def goToLower (s : String) : String :=
  String.mk (s.data.map charToLower)

/-- Helper for filepath.Ext: walk the reversed character list, collecting
until the rightmost dot of the final path element. -/
def filepathExtAux : List Char → List Char → String
  | [], _ => ""
  | c :: rest, acc =>
      if c = '/' then ""
      else if c = '.' then String.mk (List.cons '.' acc)
      else filepathExtAux rest (c :: acc)

/-- filepath.Ext: the suffix from the final dot of the last path element,
dot included; empty when there is none. -/
def filepathExt (p : String) : String :=
  filepathExtAux p.data.reverse []

/-- getFileExtension (convert.go): the extension without its dot,
lower-cased; empty when the extension is empty or a bare dot. -/
def getFileExtension (path : String) : String :=
  let ext := filepathExt path
  if ext.data.length > 1 then goToLower (String.mk (ext.data.drop 1)) else ""

/-- Whether the first character list starts the second. -/
def startsWithList : List Char → List Char → Bool
  | [], _ => true
  | _ :: _, [] => false
  | a :: as, b :: bs => a == b && startsWithList as bs

/-- Whether `sub` occurs contiguously inside `s`. -/
def containsList (sub : List Char) : List Char → Bool
  | [] => startsWithList sub []
  | c :: rest => startsWithList sub (c :: rest) || containsList sub rest

/-- strings.HasSuffix. -/
def goHasSuffix (s suffix : String) : Bool :=
  startsWithList suffix.data.reverse s.data.reverse

/-- strings.TrimSuffix. -/
def trimSuffix (s suffix : String) : String :=
  if goHasSuffix s suffix then String.mk (s.data.take (s.data.length - suffix.data.length))
  else s

def splitSlashAux : List Char → List Char → List String
  | [], acc => [String.mk acc.reverse]
  | c :: rest, acc =>
      if c = '/' then String.mk acc.reverse :: splitSlashAux rest []
      else splitSlashAux rest (c :: acc)

/-- strings.Split on the path separator. -/
def splitSlash (s : String) : List String :=
  splitSlashAux s.data []

/-- filepath.Base, simplified to paths without a trailing separator (the
only shape the program produces). -/
def filepathBase (p : String) : String :=
  match (splitSlash p).getLast? with
  | some s => s
  | none => p

/-- filepath.Dir, simplified likewise. -/
def filepathDir (p : String) : String :=
  match splitSlash p with
  | [] => "."
  | [_] => "."
  | parts => String.intercalate "/" parts.dropLast

/-- strings.Contains. -/
def goStringsContains (s sub : String) : Bool :=
  containsList sub.data s.data

/-- ConvertOptions (convert.go). Quality and MaxDimension are uint16. -/
structure ConvertOptions where
  quality : Nat
  maxDimension : Nat
  keepOriginal : Bool
  dryRun : Bool
  backup : Bool
  metadata : String
deriving DecidableEq

/-- ConversionResult (convert.go). Duration is modelled as a
non-negative nanosecond count; the wall clock that fills it in Go is not
modelled, so the converter leaves it zero. -/
structure ConversionResult where
  originalPath : String
  newPath : String
  originalSize : Int
  newSize : Int
  duration : Nat
  error : Option GoErr
deriving DecidableEq

/-- cacheEntry (convert.go). -/
structure CacheEntry where
  outputPath : String
  outputSize : Int
  lastModified : Int
  configHash : String
deriving DecidableEq

/-- The sync.Map cache of one ImageConverter, as an association list. -/
abbrev Cache := List (String × CacheEntry)

def cacheLoad : Cache → String → Option CacheEntry
  | [], _ => none
  | (q, e) :: rest, k => if q = k then some e else cacheLoad rest k

def cacheStoreEntry : Cache → String → CacheEntry → Cache
  | [], k, e => [(k, e)]
  | (q, e0) :: rest, k, e =>
      if q = k then (k, e) :: rest else (q, e0) :: cacheStoreEntry rest k e

def cacheDeleteEntry (c : Cache) (k : String) : Cache :=
  c.filter (fun kv => !(kv.1 == k))

/-- getConfigHash: quality and max dimension rendered in decimal around
an underscore. -/
def getConfigHash (opts : ConvertOptions) : String :=
  toString opts.quality ++ "_" ++ toString opts.maxDimension

/-- getCacheKey: md5 over the concatenation of input path, format and
config hash.  The digest is modelled by its preimage: md5 is a fixed
deterministic function, and only equality of keys is ever used. -/
def getCacheKey (opts : ConvertOptions) (inputPath format : String) : String :=
  inputPath ++ format ++ getConfigHash opts

/-- isAlreadyInFormat (convert.go). -/
def isAlreadyInFormat (currentExt targetFormat : String) : Bool :=
  if currentExt = targetFormat then true
  else (currentExt == "jpg" && targetFormat == "jpeg") ||
       (currentExt == "jpeg" && targetFormat == "jpg")

/-- isCacheValid (convert.go): the source must not have been modified
after the recorded time, the expected output must still stat, and the
config hash must match the current settings. -/
def isCacheValid (opts : ConvertOptions) (fs : FileSys) (cached : CacheEntry)
    (sourceModTime : Int) (expectedOutputPath : String) : Bool :=
  if sourceModTime > cached.lastModified then false
  else match osStat fs expectedOutputPath with
    | Except.error _ => false
    | Except.ok _ => if cached.configHash ≠ getConfigHash opts then false else true

/-- A decoded image, reduced to the geometry the converter inspects. -/
structure Image where
  width : Int
  height : Int
deriving DecidableEq

/-- vips.ImageType values used by getExportParams. -/
inductive ImageType where
  | unknown
  | png
  | jpeg
  | webp
  | tiff
  | gif
  | avif
  | heif
deriving DecidableEq

/-- vips.ExportParams, reduced to the fields the converter sets. -/
structure ExportParams where
  format : ImageType
  quality : Int
  compression : Int
  stripMetadata : Bool
deriving DecidableEq

/-- The external vips codec (spec section 6): decoding may fail on a
corrupted file, encoding may fail; neither is specified further. -/
structure Codec where
  load : String → Except String Image
  exportBytes : Image → ExportParams → Except String Int

/-- The observable side effects of a conversion. -/
inductive Effect where
  | codecLoad (path : String) : Effect
  | codecResize (scale : Rat) : Effect
  | codecExport (params : ExportParams) : Effect
  | fsWrite (path : String) (size : Int) : Effect
  | fsRemove (path : String) : Effect
  | cacheStore (key : String) : Effect
  | cacheDelete (key : String) : Effect
deriving DecidableEq

/-- govips img.Resize: the single scale factor is applied uniformly to
both axes (codec contract); rounding of the resulting dimensions is the
library's. -/
def vipsResize (img : Image) (scale : Rat) : Image :=
  { width := round ((img.width : Rat) * scale),
    height := round ((img.height : Rat) * scale) }

/-- getExportParams (convert.go).  `defaults` stands for the record
returned by vips.NewDefaultExportParams, an external constant. -/
def getExportParams (defaults : ExportParams) (opts : ConvertOptions) (format : String) :
    ExportParams :=
  let quality : Int := (opts.quality : Int)
  let params :=
    match opts.metadata with
    | "strip" => { defaults with stripMetadata := true }
    | "keep" => { defaults with stripMetadata := false }
    | "strip-location" => { defaults with stripMetadata := false }
    | _ => { defaults with stripMetadata := false }
  match format with
  | "png" => { params with format := ImageType.png, compression := 6, quality := quality }
  | "jpg" => { params with format := ImageType.jpeg, quality := quality }
  | "jpeg" => { params with format := ImageType.jpeg, quality := quality }
  | "webp" => { params with format := ImageType.webp, quality := quality }
  | "tiff" => { params with format := ImageType.tiff, quality := quality }
  | "gif" => { params with format := ImageType.gif, quality := quality }
  | "avif" => { params with format := ImageType.avif, quality := quality }
  | "heif" => { params with format := ImageType.heif, quality := quality }
  | _ => { params with format := ImageType.jpeg }

/-- Lines 188-206 of convertImage: the downscale decision — with a
maximum dimension configured, a single uniform scale factor of
maxDimension over the longer side, applied only when strictly below
one. -/
def resizeStep (opts : ConvertOptions) (img : Image) : Image × List Effect :=
  if opts.maxDimension > 0 then
    let maxDim : Rat := (opts.maxDimension : Rat)
    let scale : Rat :=
      if img.width > img.height then
        if (img.width : Rat) > maxDim then maxDim / (img.width : Rat) else 1
      else
        if (img.height : Rat) > maxDim then maxDim / (img.height : Rat) else 1
    if scale < 1 then (vipsResize img scale, [Effect.codecResize scale])
    else (img, [])
  else (img, [])

/-- convertImage (convert.go): decode, optionally downscale, encode,
write.  Returns the error if any, the new filesystem, and the effects. -/
def convertImage (opts : ConvertOptions) (codec : Codec) (defaults : ExportParams)
    (now : Int) (fs : FileSys) (inputPath outputPath format : String) :
    Option GoErr × FileSys × List Effect :=
  match codec.load inputPath with
  | Except.error e =>
      (some (GoErr.wrap2 "" GoErr.errCorruptedImage (GoErr.mk e)), fs,
        [Effect.codecLoad inputPath])
  | Except.ok img =>
      let rs := resizeStep opts img
      let params := getExportParams defaults opts format
      match codec.exportBytes rs.1 params with
      | Except.error e =>
          (some (GoErr.wrap "failed to export image" (GoErr.mk e)), fs,
            Effect.codecLoad inputPath :: rs.2 ++ [Effect.codecExport params])
      | Except.ok nbytes =>
          match fsWriteFile fs outputPath nbytes now with
          | Except.error e =>
              (some (GoErr.wrap "failed to write image to file" e), fs,
                Effect.codecLoad inputPath :: rs.2 ++ [Effect.codecExport params])
          | Except.ok fs2 =>
              (none, fs2,
                Effect.codecLoad inputPath :: rs.2 ++
                  [Effect.codecExport params, Effect.fsWrite outputPath nbytes])

/-- createBackup (convert.go): copy the source to
dir/backup/base.bak (the atomic temp-file dance of copyFileOptimized is
collapsed into one write, its crash states being out of scope). -/
def createBackup (fs : FileSys) (path : String) (now : Int) :
    Except GoErr (FileSys × List Effect) :=
  let bpath := filepathDir path ++ "/backup/" ++ filepathBase path ++ ".bak"
  match fsLookup fs path with
  | some (FsEntry.file info) =>
      Except.ok (fsSet fs bpath { size := info.size, modTime := now },
        [Effect.fsWrite bpath info.size])
  | some FsEntry.permDenied =>
      Except.error (GoErr.wrap "failed to open source" GoErr.fsErrPermission)
  | none =>
      Except.error (GoErr.wrap "failed to open source" GoErr.fsErrNotExist)

/-- The mutable state one ImageConverter acts on: the filesystem and its
conversion cache. -/
structure ConvState where
  fs : FileSys
  cache : Cache
deriving DecidableEq

/-- Lines 156-178 of ConvertWithOutputPath: the codec call, the
post-conversion cache refresh and the optional removal of the source. -/
def convertCodecStep (opts : ConvertOptions) (codec : Codec) (defaults : ExportParams)
    (now : Int) (st : ConvState) (path format : String) (stat : FileInfo)
    (r : ConversionResult) (cacheKey : String) (fx : List Effect) :
    ConversionResult × ConvState × List Effect :=
  match convertImage opts codec defaults now st.fs path r.newPath format with
  | (some e, fs2, cfx) => ({ r with error := some e }, { st with fs := fs2 }, fx ++ cfx)
  | (none, fs2, cfx) =>
      let step161 : ConversionResult × ConvState × List Effect :=
        match osStat fs2 r.newPath with
        | Except.ok newStat =>
            let entry : CacheEntry :=
              { outputPath := r.newPath, outputSize := newStat.size,
                lastModified := stat.modTime, configHash := getConfigHash opts }
            ({ r with newSize := newStat.size },
             { fs := fs2, cache := cacheStoreEntry st.cache cacheKey entry },
             fx ++ cfx ++ [Effect.cacheStore cacheKey])
        | Except.error _ => (r, { st with fs := fs2 }, fx ++ cfx)
      if opts.keepOriginal then step161
      else
        match fsRemoveFile step161.2.1.fs path with
        | Except.error e =>
            ({ step161.1 with error := some (GoErr.wrap "failed to remove original" e) },
             step161.2.1, step161.2.2)
        | Except.ok fs3 =>
            (step161.1, { step161.2.1 with fs := fs3 }, step161.2.2 ++ [Effect.fsRemove path])

/-- Lines 149-154 of ConvertWithOutputPath: the optional backup, then
the codec step. -/
def convertBackupStep (opts : ConvertOptions) (codec : Codec) (defaults : ExportParams)
    (now : Int) (st : ConvState) (path format : String) (stat : FileInfo)
    (r : ConversionResult) (cacheKey : String) (fx : List Effect) :
    ConversionResult × ConvState × List Effect :=
  if opts.backup then
    match createBackup st.fs path now with
    | Except.error e => ({ r with error := some (GoErr.wrap "backup failed" e) }, st, fx)
    | Except.ok (fs2, bfx) =>
        convertCodecStep opts codec defaults now { st with fs := fs2 } path format stat r
          cacheKey (fx ++ bfx)
  else convertCodecStep opts codec defaults now st path format stat r cacheKey fx

/-- Lines 135-143 of ConvertWithOutputPath: when the output file already
exists on disk, record its size and refresh the cache entry (stamped
with the current time). -/
def refreshFromExisting (opts : ConvertOptions) (now : Int) (st : ConvState)
    (r : ConversionResult) (cacheKey : String) (fx : List Effect) :
    ConversionResult × ConvState × List Effect :=
  match osStat st.fs r.newPath with
  | Except.ok newStat =>
      let entry : CacheEntry :=
        { outputPath := r.newPath, outputSize := newStat.size,
          lastModified := now, configHash := getConfigHash opts }
      ({ r with newSize := newStat.size },
       { st with cache := cacheStoreEntry st.cache cacheKey entry },
       fx ++ [Effect.cacheStore cacheKey])
  | Except.error _ => (r, st, fx)

/-- Lines 135-178 of ConvertWithOutputPath: refresh the cache from a
pre-existing output file, stop on dry run, else back up and convert. -/
def convertAfterCache (opts : ConvertOptions) (codec : Codec) (defaults : ExportParams)
    (now : Int) (st : ConvState) (path format : String) (stat : FileInfo)
    (r : ConversionResult) (cacheKey : String) (fx : List Effect) :
    ConversionResult × ConvState × List Effect :=
  let step135 := refreshFromExisting opts now st r cacheKey fx
  if opts.dryRun then step135
  else
    convertBackupStep opts codec defaults now step135.2.1 path format stat step135.1
      cacheKey step135.2.2

/-- Lines 125-133 of ConvertWithOutputPath: the cache lookup dispatch —
a valid hit short-circuits with the cached size, an invalid entry is
deleted before converting, a miss converts directly. -/
def convertCacheStep (opts : ConvertOptions) (codec : Codec) (defaults : ExportParams)
    (now : Int) (st : ConvState) (path format : String) (stat : FileInfo)
    (r : ConversionResult) (cacheKey : String) :
    Option CacheEntry → ConversionResult × ConvState × List Effect
  | some entry =>
      if isCacheValid opts st.fs entry stat.modTime r.newPath then
        ({ r with newSize := entry.outputSize }, st, [])
      else
        convertAfterCache opts codec defaults now
          { st with cache := cacheDeleteEntry st.cache cacheKey }
          path format stat r cacheKey [Effect.cacheDelete cacheKey]
  | none => convertAfterCache opts codec defaults now st path format stat r cacheKey []

/-- ConvertWithOutputPath (convert.go): stat, already-in-format check,
output-path resolution, cache lookup, then the remaining steps. -/
def convertWithOutputPath (opts : ConvertOptions) (codec : Codec) (defaults : ExportParams)
    (now : Int) (st : ConvState) (path format0 outputPath : String) :
    ConversionResult × ConvState × List Effect :=
  let result0 : ConversionResult :=
    { originalPath := path, newPath := "", originalSize := 0, newSize := 0,
      duration := 0, error := none }
  match osStat st.fs path with
  | Except.error e =>
      ({ result0 with error := some (GoErr.wrap "failed to stat file" e) }, st, [])
  | Except.ok stat =>
      let result1 := { result0 with originalSize := stat.size }
      let format := goToLower format0
      if isAlreadyInFormat (getFileExtension path) format then
        ({ result1 with error := some (GoErr.mk "file already in target format") }, st, [])
      else
        let newPath :=
          if outputPath ≠ "" then outputPath
          else trimSuffix path (filepathExt path) ++ "." ++ format
        let result2 := { result1 with newPath := newPath }
        let cacheKey := getCacheKey opts path format
        convertCacheStep opts codec defaults now st path format stat result2 cacheKey
          (cacheLoad st.cache cacheKey)

/-- Convert (convert.go): ConvertWithOutputPath with no explicit output. -/
def convert (opts : ConvertOptions) (codec : Codec) (defaults : ExportParams)
    (now : Int) (st : ConvState) (path format : String) :
    ConversionResult × ConvState × List Effect :=
  convertWithOutputPath opts codec defaults now st path format ""

/-- FailureAnalysis (stats package).  The uint32 counters cannot wrap on
realistic batch sizes, so they are modelled as Nat. -/
structure FailureAnalysis where
  corrupted : Nat
  permission : Nat
  unsupported : Nat
  other : Nat
deriving DecidableEq

/-- ConversionStatistics (stats package).  TotalSizeBefore and
TotalSizeAfter are uint64 and reduced mod 2^64 where Go would wrap;
SpaceSaved is a 64-bit int; CompressionRatio, a float64 ratio of sizes,
is modelled over Rat. -/
structure ConversionStatistics where
  totalFiles : Nat
  convertedFiles : Nat
  skippedFiles : Nat
  failedFiles : Nat
  totalSizeBefore : Nat
  totalSizeAfter : Nat
  totalDuration : Nat
  averageDuration : Nat
  spaceSaved : Int
  compressionRatio : Rat
  failures : FailureAnalysis
  directoriesProcessed : List (String × Nat)
  batchMode : Bool
deriving DecidableEq

/-- NewConversionStatistics. -/
def newConversionStatistics : ConversionStatistics :=
  { totalFiles := 0, convertedFiles := 0, skippedFiles := 0, failedFiles := 0,
    totalSizeBefore := 0, totalSizeAfter := 0, totalDuration := 0,
    averageDuration := 0, spaceSaved := 0, compressionRatio := 0,
    failures := { corrupted := 0, permission := 0, unsupported := 0, other := 0 },
    directoriesProcessed := [], batchMode := false }

/-- Go uint64(x) for an int64 x: reduction mod 2^64. -/
def goUInt64OfInt (x : Int) : Nat :=
  (x % (2 ^ 64 : Int)).toNat

/-- Go int(u) for a uint64 u on a 64-bit platform: two's-complement
reinterpretation. -/
def goIntOfUInt64 (n : Nat) : Int :=
  if n < 2 ^ 63 then (n : Int) else (n : Int) - 2 ^ 64

/-- The DirectoriesProcessed map bump. -/
def bumpDir : List (String × Nat) → String → List (String × Nat)
  | [], d => [(d, 1)]
  | (k, v) :: rest, d =>
      if k = d then (k, v + 1) :: rest else (k, v) :: bumpDir rest d

/-- AddResult (stats package): classify one ConversionResult. -/
def addResult (cs : ConversionStatistics) (r : ConversionResult) : ConversionStatistics :=
  let cs1 := { cs with totalFiles := cs.totalFiles + 1,
                       totalDuration := cs.totalDuration + r.duration }
  match r.error with
  | some e =>
      let cs2 := { cs1 with failedFiles := cs1.failedFiles + 1 }
      if errorsIs e GoErr.errCorruptedImage then
        { cs2 with failures.corrupted := cs2.failures.corrupted + 1 }
      else if errorsIs e GoErr.errPermissionDenied then
        { cs2 with failures.permission := cs2.failures.permission + 1 }
      else if errorsIs e GoErr.errUnsupportedFormat then
        { cs2 with failures.unsupported := cs2.failures.unsupported + 1 }
      else
        { cs2 with failures.other := cs2.failures.other + 1 }
  | none =>
      if r.originalPath = "" ∧ r.newSize = 0 then
        { cs1 with skippedFiles := cs1.skippedFiles + 1 }
      else
        let cs3 := { cs1 with
          convertedFiles := cs1.convertedFiles + 1,
          totalSizeBefore := (cs1.totalSizeBefore + goUInt64OfInt r.originalSize) % 2 ^ 64,
          totalSizeAfter := (cs1.totalSizeAfter + goUInt64OfInt r.newSize) % 2 ^ 64 }
        if cs3.batchMode then
          { cs3 with directoriesProcessed :=
              bumpDir cs3.directoriesProcessed (filepathDir r.originalPath) }
        else cs3

/-- Calculate (stats package): the derived fields, computed once.  The
uint64 difference TotalSizeBefore - TotalSizeAfter wraps mod 2^64 before
its conversion to int. -/
def calculate (cs : ConversionStatistics) : ConversionStatistics :=
  let cs1 :=
    if cs.totalFiles > 0 then
      { cs with averageDuration := cs.totalDuration / cs.totalFiles }
    else cs
  if cs1.totalSizeBefore > 0 then
    { cs1 with
      spaceSaved := goIntOfUInt64 ((cs1.totalSizeBefore + 2 ^ 64 - cs1.totalSizeAfter) % 2 ^ 64),
      compressionRatio := (cs1.totalSizeAfter : Rat) / (cs1.totalSizeBefore : Rat) }
  else cs1

/-- filepath.Clean, element-stack form: skip empty and dot elements, let
a dotdot pop a previous element, keep leading dotdots of a relative
path, and drop dotdots at the root. -/
def filepathCleanStack (rooted : Bool) : List String → List String → List String
  | st, [] => st
  | st, e :: rest =>
      if e = "" ∨ e = "." then filepathCleanStack rooted st rest
      else if e = ".." then
        match st with
        | [] => filepathCleanStack rooted (if rooted then [] else [".."]) rest
        | top :: tl =>
            if top = ".." then filepathCleanStack rooted (".." :: top :: tl) rest
            else filepathCleanStack rooted tl rest
      else filepathCleanStack rooted (e :: st) rest

/-- filepath.Clean on slash-separated paths. -/
def filepathClean (path : String) : String :=
  if path = "" then "."
  else
    let rooted := match path.data with
      | c :: _ => c = '/'
      | [] => false
    let parts := (filepathCleanStack rooted [] (splitSlash path)).reverse
    if rooted then
      if parts = [] then "/" else "/" ++ String.intercalate "/" parts
    else
      if parts = [] then "." else String.intercalate "/" parts

/-- ValidateFilePath (validator package): reject when the cleaned path
contains ".." as a substring. -/
def validateFilePath (path : String) : Option GoErr :=
  if goStringsContains (filepathClean path) ".." then
    some (GoErr.mk ("invalid path (contains path traversal): " ++ path))
  else none

/-- A path element equal to ".." — the "traversal sequence" of the
claim, stated over the raw path. -/
def hasTraversalElem (path : String) : Bool :=
  (splitSlash path).contains ".."

/-- Job (worker package), as the repository's test constructs it. -/
structure Job where
  path : String
  format : String
deriving DecidableEq

/-- Modelled from the spec: the worker package is not under src/.  Per
section 4.3 and design note 3, each worker wraps one job's processing in
a recovery boundary; an unexpected internal fault is converted into an
error-bearing result for that job instead of escaping the worker.  The
outcome of processing one job is either a result or such a fault. -/
inductive JobOutcome where
  | ok (r : ConversionResult) : JobOutcome
  | fault (msg : String) : JobOutcome

/-- Modelled from the spec: the recovery boundary of one worker
iteration — a fault becomes an error result for the job. -/
def recoverResult (j : Job) (o : JobOutcome) : ConversionResult :=
  match o with
  | JobOutcome.ok r => r
  | JobOutcome.fault msg =>
      { originalPath := j.path, newPath := "", originalSize := 0, newSize := 0,
        duration := 0, error := some (GoErr.mk ("worker recovered: " ++ msg)) }

/-- Modelled from the spec: the result stream a WorkerPool delivers for
the jobs added before Stop — one recovered result per job. -/
def workerPoolRun (process : Job → JobOutcome) (jobs : List Job) : List ConversionResult :=
  jobs.map (fun j => recoverResult j (process j))

/-! Concrete sample data used by witnesses and counterexamples. -/

def exOpts : ConvertOptions :=
  { quality := 80, maxDimension := 0, keepOriginal := true, dryRun := false,
    backup := false, metadata := "keep" }

def exCodec : Codec :=
  { load := fun _ => Except.ok { width := 4, height := 3 },
    exportBytes := fun _ _ => Except.ok 42 }

def exDefaults : ExportParams :=
  { format := ImageType.unknown, quality := 90, compression := 0, stripMetadata := false }

/-! Claim C1. -/

/-- C1: for every set of jobs submitted before Stop, the WorkerPool
delivers exactly one ConversionResult per job — the stream has the same
length as the job list and its i-th element is the recovered outcome of
the i-th job — and an internal fault while processing a job is converted
into an error-bearing result for that job (so it aborts nothing else). -/
theorem c1_worker_pool_exactly_one_result (process : Job → JobOutcome) (jobs : List Job) :
    (workerPoolRun process jobs).length = jobs.length ∧
    (∀ i : Nat, (workerPoolRun process jobs)[i]? =
      (jobs[i]?).map (fun j => recoverResult j (process j))) ∧
    (∀ (j : Job) (msg : String),
      (recoverResult j (JobOutcome.fault msg)).error =
        some (GoErr.mk ("worker recovered: " ++ msg))) := by
  refine ⟨by simp [workerPoolRun], ?_, ?_⟩
  · intro i
    simp [workerPoolRun]
  · intro j msg
    rfl

/-! Claim C9. -/

/-- C9 counterexample: the path "/a/../b" contains a ".." path element,
yet ValidateFilePath returns nil for it — filepath.Clean resolves the
element away before the substring test. -/
theorem c9_counterexample :
    hasTraversalElem "/a/../b" = true ∧ validateFilePath "/a/../b" = none := by
  exact ⟨by decide, by decide⟩

/-- C9 amended: ValidateFilePath returns a non-nil error exactly when
the cleaned path still contains ".." as a substring; hence a path whose
".." elements are resolved away by cleaning is accepted, a ".."
embedded in a file name is rejected although it is not a traversal
element, and a relative path that keeps a leading ".." is rejected. -/
theorem c9_validate_file_path_amended (path : String) :
    ((validateFilePath path).isSome ↔ goStringsContains (filepathClean path) ".." = true) ∧
    (validateFilePath "a..b" ≠ none ∧ hasTraversalElem "a..b" = false) ∧
    validateFilePath "../up" ≠ none := by
  refine ⟨?_, ⟨by decide, by decide⟩, by decide⟩
  unfold validateFilePath
  split <;> simp_all

/-! Claim C7. -/

def c7res : ConversionResult :=
  { originalPath := "", newPath := "", originalSize := 1000, newSize := 500,
    duration := 7, error := none }

/-- C7: Calculate sets AverageDuration to TotalDuration divided by
TotalFiles, SpaceSaved to TotalSizeBefore minus TotalSizeAfter and
CompressionRatio to TotalSizeAfter divided by TotalSizeBefore (for a
nonempty run with realistic sizes); in particular one converted result
of originalSize 1000 and newSize 500 gives SpaceSaved 500,
CompressionRatio one half and ConvertedFiles 1. -/
theorem c7_calculate_formulas (cs : ConversionStatistics)
    (h1 : 0 < cs.totalFiles) (h2 : 0 < cs.totalSizeBefore)
    (h3 : cs.totalSizeBefore < 2 ^ 63) (h4 : cs.totalSizeAfter < 2 ^ 63) :
    ((calculate cs).averageDuration = cs.totalDuration / cs.totalFiles ∧
     (calculate cs).spaceSaved = (cs.totalSizeBefore : Int) - (cs.totalSizeAfter : Int) ∧
     (calculate cs).compressionRatio = (cs.totalSizeAfter : Rat) / (cs.totalSizeBefore : Rat)) ∧
    ((calculate (addResult newConversionStatistics c7res)).spaceSaved = 500 ∧
     (calculate (addResult newConversionStatistics c7res)).compressionRatio = 1 / 2 ∧
     (addResult newConversionStatistics c7res).convertedFiles = 1) := by
  refine ⟨⟨?_, ?_, ?_⟩, ?_, ?_, by decide⟩
  · simp [calculate, h1, h2]
  · simp only [calculate, gt_iff_lt, h1, if_true]
    simp only [h2, if_true]
    unfold goIntOfUInt64
    split <;> omega
  · simp [calculate, h1, h2]
  · simp [calculate, addResult, newConversionStatistics, c7res, goUInt64OfInt, goIntOfUInt64]
  · simp [calculate, addResult, newConversionStatistics, c7res, goUInt64OfInt]
    norm_num

def c7cs : ConversionStatistics :=
  { newConversionStatistics with
    totalFiles := 2
    totalSizeBefore := 1000
    totalSizeAfter := 600
    totalDuration := 10 }

/-- Witness for C7 at a concrete statistics record. -/
theorem c7_calculate_formulas_witness :
    ((calculate c7cs).averageDuration = c7cs.totalDuration / c7cs.totalFiles ∧
     (calculate c7cs).spaceSaved = (c7cs.totalSizeBefore : Int) - (c7cs.totalSizeAfter : Int) ∧
     (calculate c7cs).compressionRatio = (c7cs.totalSizeAfter : Rat) / (c7cs.totalSizeBefore : Rat)) ∧
    ((calculate (addResult newConversionStatistics c7res)).spaceSaved = 500 ∧
     (calculate (addResult newConversionStatistics c7res)).compressionRatio = 1 / 2 ∧
     (addResult newConversionStatistics c7res).convertedFiles = 1) :=
  c7_calculate_formulas c7cs (by decide) (by decide) (by decide) (by decide)

/-! Claim C4. -/

def c4res : ConversionResult :=
  (convertWithOutputPath exOpts exCodec exDefaults 9
    { fs := [("a.jpg", FsEntry.file { size := 100, modTime := 5 })], cache := [] }
    "a.jpg" "jpg" "").1

/-- C4 counterexample: the result Convert produces for a file already in
the target format carries an error, so AddResult counts it as failed —
not as skipped. -/
theorem c4_counterexample :
    c4res.error ≠ none ∧
    (addResult newConversionStatistics c4res).skippedFiles = 0 ∧
    (addResult newConversionStatistics c4res).failedFiles = 1 :=
  ⟨by decide, by decide, by decide⟩

/-- C4 amended: an error-free result is counted skipped exactly when it
has neither an original path nor a new size, and any other error-free
result is counted converted with its sizes accumulated; however a result
carrying an error — as the already-in-target-format result produced by
Convert does — is counted failed, never skipped. -/
theorem c4_add_result_amended (cs : ConversionStatistics) (r : ConversionResult)
    (h : r.error = none) :
    ((addResult cs r).skippedFiles = cs.skippedFiles + 1 ↔
      (r.originalPath = "" ∧ r.newSize = 0)) ∧
    (¬(r.originalPath = "" ∧ r.newSize = 0) →
      (addResult cs r).convertedFiles = cs.convertedFiles + 1 ∧
      (addResult cs r).totalSizeBefore =
        (cs.totalSizeBefore + goUInt64OfInt r.originalSize) % 2 ^ 64 ∧
      (addResult cs r).totalSizeAfter =
        (cs.totalSizeAfter + goUInt64OfInt r.newSize) % 2 ^ 64) ∧
    (∀ (cs2 : ConversionStatistics) (r2 : ConversionResult), r2.error ≠ none →
      (addResult cs2 r2).skippedFiles = cs2.skippedFiles ∧
      (addResult cs2 r2).failedFiles = cs2.failedFiles + 1) := by
  refine ⟨?_, ?_, ?_⟩
  · by_cases hc : r.originalPath = "" ∧ r.newSize = 0
    · simp [addResult, h, hc]
    · by_cases hb : cs.batchMode = true <;> simp [addResult, h, hc, hb]
  · intro hc
    by_cases hb : cs.batchMode = true <;> simp [addResult, h, hc, hb]
  · intro cs2 r2 h2
    cases h2e : r2.error with
    | none => exact absurd h2e h2
    | some e => simp [addResult, h2e]; split_ifs <;> simp

def c4okres : ConversionResult :=
  { originalPath := "b.png", newPath := "b.jpg", originalSize := 100, newSize := 42,
    duration := 3, error := none }

/-- Witness for C4 amended at a concrete error-free converted result. -/
theorem c4_add_result_amended_witness :
    (((addResult newConversionStatistics c4okres).skippedFiles =
        newConversionStatistics.skippedFiles + 1 ↔
      (c4okres.originalPath = "" ∧ c4okres.newSize = 0)) ∧
    (¬(c4okres.originalPath = "" ∧ c4okres.newSize = 0) →
      (addResult newConversionStatistics c4okres).convertedFiles =
        newConversionStatistics.convertedFiles + 1 ∧
      (addResult newConversionStatistics c4okres).totalSizeBefore =
        (newConversionStatistics.totalSizeBefore + goUInt64OfInt c4okres.originalSize) % 2 ^ 64 ∧
      (addResult newConversionStatistics c4okres).totalSizeAfter =
        (newConversionStatistics.totalSizeAfter + goUInt64OfInt c4okres.newSize) % 2 ^ 64) ∧
    (∀ (cs2 : ConversionStatistics) (r2 : ConversionResult), r2.error ≠ none →
      (addResult cs2 r2).skippedFiles = cs2.skippedFiles ∧
      (addResult cs2 r2).failedFiles = cs2.failedFiles + 1)) :=
  c4_add_result_amended newConversionStatistics c4okres rfl

/-! Claim C3. -/

def c3st : ConvState :=
  { fs := [("secret.png", FsEntry.permDenied)], cache := [] }

def c3res : ConversionResult :=
  (convertWithOutputPath exOpts exCodec exDefaults 9 c3st "secret.png" "jpg" "").1

/-- C3 counterexample: a permission-denied stat failure produces an
error wrapping the OS sentinel, not appErrors.ErrPermissionDenied, so
AddResult counts it under other and not under permission. -/
theorem c3_counterexample :
    c3res.error =
      some (GoErr.wrap "failed to stat file" (GoErr.wrap "stat" GoErr.fsErrPermission)) ∧
    (addResult newConversionStatistics c3res).failures.other = 1 ∧
    (addResult newConversionStatistics c3res).failures.permission = 0 :=
  ⟨by decide, by decide, by decide⟩

/-- C3 amended: errors are classified through errors.Is on the declared
kind — a result whose error chain carries appErrors.ErrPermissionDenied
is counted under permission — and a stat failure yields an immediate
tagged error result; but that tag wraps the OS error, so a
permission-denied stat failure is counted under other, not permission. -/
theorem c3_stat_error_classification (opts : ConvertOptions) (codec : Codec)
    (defaults : ExportParams) (now : Int) (st : ConvState) (path fmt outP : String)
    (cs : ConversionStatistics)
    (h : fsLookup st.fs path = some FsEntry.permDenied) :
    (convertWithOutputPath opts codec defaults now st path fmt outP).1.error =
      some (GoErr.wrap "failed to stat file" (GoErr.wrap "stat" GoErr.fsErrPermission)) ∧
    (∀ r : ConversionResult,
      r.error =
        some (GoErr.wrap "failed to stat file" (GoErr.wrap "stat" GoErr.fsErrPermission)) →
      (addResult cs r).failures.other = cs.failures.other + 1 ∧
      (addResult cs r).failures.permission = cs.failures.permission) ∧
    (∀ (r2 : ConversionResult) (e : GoErr), r2.error = some e →
      errorsIs e GoErr.errCorruptedImage = false →
      errorsIs e GoErr.errPermissionDenied = true →
      (addResult cs r2).failures.permission = cs.failures.permission + 1) := by
  have e1 : errorsIs (GoErr.wrap "failed to stat file" (GoErr.wrap "stat" GoErr.fsErrPermission))
      GoErr.errCorruptedImage = false := by decide
  have e2 : errorsIs (GoErr.wrap "failed to stat file" (GoErr.wrap "stat" GoErr.fsErrPermission))
      GoErr.errPermissionDenied = false := by decide
  have e3 : errorsIs (GoErr.wrap "failed to stat file" (GoErr.wrap "stat" GoErr.fsErrPermission))
      GoErr.errUnsupportedFormat = false := by decide
  refine ⟨?_, ?_, ?_⟩
  · simp [convertWithOutputPath, osStat, h]
  · intro r hr
    simp [addResult, hr, e1, e2, e3]
  · intro r2 e he h1 h2
    simp [addResult, he, h1, h2]

/-- Witness for C3 amended at a concrete permission-denied state. -/
theorem c3_stat_error_classification_witness :
    ((convertWithOutputPath exOpts exCodec exDefaults 9 c3st "secret.png" "jpg" "").1.error =
      some (GoErr.wrap "failed to stat file" (GoErr.wrap "stat" GoErr.fsErrPermission)) ∧
    (∀ r : ConversionResult,
      r.error =
        some (GoErr.wrap "failed to stat file" (GoErr.wrap "stat" GoErr.fsErrPermission)) →
      (addResult newConversionStatistics r).failures.other =
        newConversionStatistics.failures.other + 1 ∧
      (addResult newConversionStatistics r).failures.permission =
        newConversionStatistics.failures.permission) ∧
    (∀ (r2 : ConversionResult) (e : GoErr), r2.error = some e →
      errorsIs e GoErr.errCorruptedImage = false →
      errorsIs e GoErr.errPermissionDenied = true →
      (addResult newConversionStatistics r2).failures.permission =
        newConversionStatistics.failures.permission + 1)) :=
  c3_stat_error_classification exOpts exCodec exDefaults 9 c3st "secret.png" "jpg" ""
    newConversionStatistics (by decide)

/-! Claim C6. -/

/-- C6: when the source stats successfully and its current extension
already denotes the target format — jpg and jpeg being equivalent in
either direction — Convert returns the "file already in target format"
error result for that path and performs zero filesystem and cache
mutation and no effects whatsoever. -/
theorem c6_already_in_format (opts : ConvertOptions) (codec : Codec) (defaults : ExportParams)
    (now : Int) (st : ConvState) (path fmt outP : String) (info : FileInfo)
    (hstat : osStat st.fs path = Except.ok info)
    (hfmt : getFileExtension path = goToLower fmt ∨
            (getFileExtension path = "jpg" ∧ goToLower fmt = "jpeg") ∨
            (getFileExtension path = "jpeg" ∧ goToLower fmt = "jpg")) :
    (convertWithOutputPath opts codec defaults now st path fmt outP).1.error =
      some (GoErr.mk "file already in target format") ∧
    (convertWithOutputPath opts codec defaults now st path fmt outP).1.originalPath = path ∧
    (convertWithOutputPath opts codec defaults now st path fmt outP).2.1 = st ∧
    (convertWithOutputPath opts codec defaults now st path fmt outP).2.2 = [] := by
  have halready : isAlreadyInFormat (getFileExtension path) (goToLower fmt) = true := by
    rcases hfmt with h | ⟨h1, h2⟩ | ⟨h1, h2⟩
    · simp [isAlreadyInFormat, h]
    · rw [h1, h2]; decide
    · rw [h1, h2]; decide
  simp [convertWithOutputPath, hstat, halready]

def c6st : ConvState :=
  { fs := [("photo.JPG", FsEntry.file { size := 100, modTime := 5 })], cache := [] }

/-- Witness for C6: converting photo.JPG to jpeg. -/
theorem c6_already_in_format_witness :
    ((convertWithOutputPath exOpts exCodec exDefaults 9 c6st "photo.JPG" "jpeg" "").1.error =
      some (GoErr.mk "file already in target format") ∧
    (convertWithOutputPath exOpts exCodec exDefaults 9 c6st "photo.JPG" "jpeg" "").1.originalPath =
      "photo.JPG" ∧
    (convertWithOutputPath exOpts exCodec exDefaults 9 c6st "photo.JPG" "jpeg" "").2.1 = c6st ∧
    (convertWithOutputPath exOpts exCodec exDefaults 9 c6st "photo.JPG" "jpeg" "").2.2 = []) :=
  c6_already_in_format exOpts exCodec exDefaults 9 c6st "photo.JPG" "jpeg" ""
    { size := 100, modTime := 5 } rfl (Or.inr (Or.inl ⟨by decide, by decide⟩))

/-! Claim C2. -/

/-- Which effects mutate the filesystem. -/
def isFsMutation : Effect → Bool
  | Effect.fsWrite _ _ => true
  | Effect.fsRemove _ => true
  | _ => false

def c2opts : ConvertOptions := { exOpts with dryRun := true }

def c2st : ConvState :=
  { fs := [("a.png", FsEntry.file { size := 100, modTime := 5 }),
           ("a.jpg", FsEntry.file { size := 50, modTime := 6 })], cache := [] }

/-- C2 counterexample: a dry-run Convert of an existing file that is not
in the target format mutates the cache when the output file already
exists on disk — it stores a refreshed cache entry — contradicting "no
cache mutation beyond reads". -/
theorem c2_counterexample :
    c2opts.dryRun = true ∧
    (convertWithOutputPath c2opts exCodec exDefaults 9 c2st "a.png" "jpg" "").1.error = none ∧
    (convertWithOutputPath c2opts exCodec exDefaults 9 c2st "a.png" "jpg" "").2.1.fs = c2st.fs ∧
    (convertWithOutputPath c2opts exCodec exDefaults 9 c2st "a.png" "jpg" "").2.1.cache ≠
      c2st.cache ∧
    (convertWithOutputPath c2opts exCodec exDefaults 9 c2st "a.png" "jpg" "").2.2 =
      [Effect.cacheStore "a.pngjpg80_0"] :=
  ⟨by decide, by decide, by decide, by decide, by decide⟩

/-- The output-file refresh of lines 135-143 keeps the result's error
and path and the filesystem, and adds at most a cache-store effect. -/
theorem refreshFromExisting_frame (opts : ConvertOptions) (now : Int) (st : ConvState)
    (r : ConversionResult) (key : String) (fx : List Effect) :
    (refreshFromExisting opts now st r key fx).1.error = r.error ∧
    (refreshFromExisting opts now st r key fx).1.newPath = r.newPath ∧
    (refreshFromExisting opts now st r key fx).2.1.fs = st.fs ∧
    (∀ e ∈ (refreshFromExisting opts now st r key fx).2.2,
      e ∈ fx ∨ e = Effect.cacheStore key) := by
  unfold refreshFromExisting
  split
  · refine ⟨rfl, rfl, rfl, ?_⟩
    intro e he
    simpa using he
  · refine ⟨rfl, rfl, rfl, ?_⟩
    intro e he
    exact Or.inl he

/-- On a dry run, the tail of the conversion (everything past the cache
lookup) touches neither the filesystem nor the result error, and adds no
filesystem-mutating effect. -/
theorem convertAfterCache_dry_run_frame (opts : ConvertOptions) (codec : Codec)
    (defaults : ExportParams) (now : Int) (st : ConvState) (path fmtL : String)
    (stat : FileInfo) (r : ConversionResult) (key : String) (fx : List Effect)
    (hdry : opts.dryRun = true) (herr : r.error = none)
    (hfx : ∀ e ∈ fx, isFsMutation e = false) :
    (convertAfterCache opts codec defaults now st path fmtL stat r key fx).1.error = none ∧
    (convertAfterCache opts codec defaults now st path fmtL stat r key fx).2.1.fs = st.fs ∧
    (∀ e ∈ (convertAfterCache opts codec defaults now st path fmtL stat r key fx).2.2,
      isFsMutation e = false) := by
  obtain ⟨he, hnp, hfs, hmem⟩ := refreshFromExisting_frame opts now st r key fx
  simp only [convertAfterCache, hdry, if_true]
  refine ⟨he.trans herr, hfs, ?_⟩
  intro e hee
  rcases hmem e hee with h | h
  · exact hfx e h
  · subst h; rfl

/-- C2 amended: a dry-run Convert of an existing file that is not
already in the target format performs no filesystem write or deletion
(the filesystem is returned unchanged and no write or remove effect is
emitted) and returns a result with no error; the conversion cache,
however, may be mutated before the dry-run check — a stale entry is
deleted and, when the output file already exists on disk, a refreshed
entry is stored. -/
theorem c2_dry_run_amended (opts : ConvertOptions) (codec : Codec) (defaults : ExportParams)
    (now : Int) (st : ConvState) (path fmt outP : String) (info : FileInfo)
    (hdry : opts.dryRun = true)
    (hstat : osStat st.fs path = Except.ok info)
    (hfmt : isAlreadyInFormat (getFileExtension path) (goToLower fmt) = false) :
    (convertWithOutputPath opts codec defaults now st path fmt outP).1.error = none ∧
    (convertWithOutputPath opts codec defaults now st path fmt outP).2.1.fs = st.fs ∧
    (∀ e ∈ (convertWithOutputPath opts codec defaults now st path fmt outP).2.2,
      isFsMutation e = false) := by
  simp only [convertWithOutputPath, hstat, hfmt]
  simp only [Bool.false_eq_true, if_false]
  cases hload : cacheLoad st.cache (getCacheKey opts path (goToLower fmt)) with
  | none =>
      simp only [convertCacheStep]
      apply convertAfterCache_dry_run_frame
      · exact hdry
      · rfl
      · intro e he
        simp at he
  | some entry =>
      simp only [convertCacheStep]
      split_ifs <;>
        first
        | exact ⟨rfl, rfl, fun e he => by simp at he⟩
        | (apply convertAfterCache_dry_run_frame <;>
            first
            | exact hdry
            | rfl
            | (intro e he; simp at he; subst he; rfl))

/-- Witness for C2 amended: the dry-run of the counterexample state. -/
theorem c2_dry_run_amended_witness :
    ((convertWithOutputPath c2opts exCodec exDefaults 9 c2st "a.png" "jpg" "").1.error = none ∧
    (convertWithOutputPath c2opts exCodec exDefaults 9 c2st "a.png" "jpg" "").2.1.fs = c2st.fs ∧
    (∀ e ∈ (convertWithOutputPath c2opts exCodec exDefaults 9 c2st "a.png" "jpg" "").2.2,
      isFsMutation e = false)) :=
  c2_dry_run_amended c2opts exCodec exDefaults 9 c2st "a.png" "jpg" ""
    { size := 100, modTime := 5 } (by decide) rfl (by decide)

/-! Claim C8. -/

/-- The downscale decision in full: with a positive maximum dimension,
an image whose longer side exceeds it is resized by exactly
maxDimension / longerSide, a factor strictly below one; an image whose
longer side does not exceed it is left untouched. -/
theorem resizeStep_spec (opts : ConvertOptions) (img : Image)
    (hmax : 0 < opts.maxDimension) (hw : 0 < img.width) (hh : 0 < img.height) :
    ((opts.maxDimension : Int) < max img.width img.height →
      (resizeStep opts img).2 =
        [Effect.codecResize ((opts.maxDimension : Rat) / ((max img.width img.height : Int) : Rat))] ∧
      ((opts.maxDimension : Rat) / ((max img.width img.height : Int) : Rat)) < 1 ∧
      (resizeStep opts img).1 =
        vipsResize img ((opts.maxDimension : Rat) / ((max img.width img.height : Int) : Rat))) ∧
    (max img.width img.height ≤ (opts.maxDimension : Int) →
      (resizeStep opts img).2 = [] ∧ (resizeStep opts img).1 = img) := by
  constructor
  · intro hlt
    by_cases hwh : img.height < img.width
    · have hmaxw : max img.width img.height = img.width := max_eq_left hwh.le
      rw [hmaxw] at hlt ⊢
      have hltR : (opts.maxDimension : Rat) < ((img.width : Int) : Rat) := by
        exact_mod_cast hlt
      have hwposR : (0 : Rat) < ((img.width : Int) : Rat) := by exact_mod_cast hw
      have hscale : (opts.maxDimension : Rat) / ((img.width : Int) : Rat) < 1 :=
        (div_lt_one hwposR).mpr hltR
      simp only [resizeStep]
      rw [if_pos hmax, if_pos hwh, if_pos hltR, if_pos hscale]
      exact ⟨rfl, hscale, rfl⟩
    · have hmaxh : max img.width img.height = img.height :=
        max_eq_right (not_lt.mp hwh)
      rw [hmaxh] at hlt ⊢
      have hltR : (opts.maxDimension : Rat) < ((img.height : Int) : Rat) := by
        exact_mod_cast hlt
      have hhposR : (0 : Rat) < ((img.height : Int) : Rat) := by exact_mod_cast hh
      have hscale : (opts.maxDimension : Rat) / ((img.height : Int) : Rat) < 1 :=
        (div_lt_one hhposR).mpr hltR
      simp only [resizeStep]
      rw [if_pos hmax, if_neg hwh, if_pos hltR, if_pos hscale]
      exact ⟨rfl, hscale, rfl⟩
  · intro hle
    by_cases hwh : img.height < img.width
    · have hlew : img.width ≤ (opts.maxDimension : Int) :=
        le_trans (le_max_left _ _) hle
      have hleR : ((img.width : Int) : Rat) ≤ (opts.maxDimension : Rat) := by
        exact_mod_cast hlew
      simp only [resizeStep]
      rw [if_pos hmax, if_pos hwh, if_neg (not_lt.mpr hleR), if_neg (lt_irrefl (1 : Rat))]
      exact ⟨rfl, rfl⟩
    · have hleh : img.height ≤ (opts.maxDimension : Int) :=
        le_trans (le_max_right _ _) hle
      have hleR : ((img.height : Int) : Rat) ≤ (opts.maxDimension : Rat) := by
        exact_mod_cast hleh
      simp only [resizeStep]
      rw [if_pos hmax, if_neg hwh, if_neg (not_lt.mpr hleR), if_neg (lt_irrefl (1 : Rat))]
      exact ⟨rfl, rfl⟩

/-- A resize effect appears in a conversion's effect trace exactly when
the downscale decision emitted it. -/
theorem convertImage_resize_mem (opts : ConvertOptions) (codec : Codec)
    (defaults : ExportParams) (now : Int) (fs : FileSys) (inPath outPath fmtL : String)
    (img : Image) (s : Rat)
    (hload : codec.load inPath = Except.ok img) :
    (Effect.codecResize s ∈ (convertImage opts codec defaults now fs inPath outPath fmtL).2.2 ↔
     Effect.codecResize s ∈ (resizeStep opts img).2) := by
  unfold convertImage
  simp only [hload]
  split
  · simp
  · split <;> simp

/-- C8: when a maximum dimension is configured and the longer side of
the decoded image exceeds it, convertImage emits exactly one resize with
the single uniform factor maxDimension / longerSide, a factor strictly
below one (so never an upscale); when the longer side does not exceed
it, no resize happens at all; and the codec applies one factor to both
axes. -/
theorem c8_resize_policy (opts : ConvertOptions) (codec : Codec) (defaults : ExportParams)
    (now : Int) (fs : FileSys) (inPath outPath fmtL : String) (img : Image)
    (hmax : 0 < opts.maxDimension)
    (hload : codec.load inPath = Except.ok img)
    (hw : 0 < img.width) (hh : 0 < img.height) :
    ((opts.maxDimension : Int) < max img.width img.height →
      Effect.codecResize ((opts.maxDimension : Rat) / ((max img.width img.height : Int) : Rat)) ∈
        (convertImage opts codec defaults now fs inPath outPath fmtL).2.2 ∧
      ((opts.maxDimension : Rat) / ((max img.width img.height : Int) : Rat)) < 1) ∧
    (max img.width img.height ≤ (opts.maxDimension : Int) →
      ∀ s : Rat,
        Effect.codecResize s ∉ (convertImage opts codec defaults now fs inPath outPath fmtL).2.2) ∧
    (∀ (im : Image) (s : Rat),
      (vipsResize im s).width = round ((im.width : Rat) * s) ∧
      (vipsResize im s).height = round ((im.height : Rat) * s)) := by
  obtain ⟨hgt, hle⟩ := resizeStep_spec opts img hmax hw hh
  refine ⟨?_, ?_, fun im s => ⟨rfl, rfl⟩⟩
  · intro hlt
    obtain ⟨heff, hs1, _⟩ := hgt hlt
    refine ⟨?_, hs1⟩
    rw [convertImage_resize_mem opts codec defaults now fs inPath outPath fmtL img _ hload, heff]
    simp
  · intro hle2 s
    obtain ⟨heff, _⟩ := hle hle2
    rw [convertImage_resize_mem opts codec defaults now fs inPath outPath fmtL img s hload, heff]
    simp

def c8opts : ConvertOptions := { exOpts with maxDimension := 100 }

def c8codec : Codec :=
  { load := fun _ => Except.ok { width := 200, height := 50 },
    exportBytes := fun _ _ => Except.ok 42 }

/-- Witness for C8: a 200 by 50 image against a maximum dimension of
100. -/
theorem c8_resize_policy_witness :
    (((c8opts.maxDimension : Int) < max (200 : Int) 50 →
      Effect.codecResize ((c8opts.maxDimension : Rat) / ((max (200 : Int) 50 : Int) : Rat)) ∈
        (convertImage c8opts c8codec exDefaults 9 [] "a.png" "a.jpg" "jpg").2.2 ∧
      ((c8opts.maxDimension : Rat) / ((max (200 : Int) 50 : Int) : Rat)) < 1) ∧
    (max (200 : Int) 50 ≤ (c8opts.maxDimension : Int) →
      ∀ s : Rat,
        Effect.codecResize s ∉ (convertImage c8opts c8codec exDefaults 9 [] "a.png" "a.jpg" "jpg").2.2) ∧
    (∀ (im : Image) (s : Rat),
      (vipsResize im s).width = round ((im.width : Rat) * s) ∧
      (vipsResize im s).height = round ((im.height : Rat) * s))) :=
  c8_resize_policy c8opts c8codec exDefaults 9 [] "a.png" "a.jpg" "jpg"
    { width := 200, height := 50 } (by decide) rfl (by decide) (by decide)

/-! Claim C10: error-shape and path-preservation lemmas. -/

theorem errorsIs_unsup_wrap (m : String) (g : GoErr) :
    errorsIs (GoErr.wrap m g) GoErr.errUnsupportedFormat =
      errorsIs g GoErr.errUnsupportedFormat := by
  simp [errorsIs, beq_iff_eq]

theorem errorsIs_unsup_wrap2 (m : String) (a b : GoErr) :
    errorsIs (GoErr.wrap2 m a b) GoErr.errUnsupportedFormat =
      (errorsIs a GoErr.errUnsupportedFormat || errorsIs b GoErr.errUnsupportedFormat) := by
  have hne : (GoErr.wrap2 m a b == GoErr.errUnsupportedFormat) = false := by
    rw [beq_eq_false_iff_ne]
    exact fun hcontra => GoErr.noConfusion hcontra
  simp [errorsIs, hne]

theorem errorsIs_unsup_mk (s : String) :
    errorsIs (GoErr.mk s) GoErr.errUnsupportedFormat = false := by
  simp [errorsIs, beq_iff_eq]

theorem osStat_error_not_unsupported (fs : FileSys) (p : String) :
    ∀ e, osStat fs p = Except.error e → errorsIs e GoErr.errUnsupportedFormat = false := by
  unfold osStat
  rcases fsLookup fs p with _ | entry
  · intro e h
    cases h
    decide
  · cases entry with
    | file info => intro e h; cases h
    | permDenied => intro e h; cases h; decide

theorem fsWriteFile_error_not_unsupported (fs : FileSys) (p : String) (size now : Int) :
    ∀ e, fsWriteFile fs p size now = Except.error e →
      errorsIs e GoErr.errUnsupportedFormat = false := by
  unfold fsWriteFile
  rcases fsLookup fs p with _ | entry
  · intro e h; cases h
  · cases entry with
    | file info => intro e h; cases h
    | permDenied => intro e h; cases h; decide

theorem fsRemoveFile_error_not_unsupported (fs : FileSys) (p : String) :
    ∀ e, fsRemoveFile fs p = Except.error e →
      errorsIs e GoErr.errUnsupportedFormat = false := by
  unfold fsRemoveFile
  rcases fsLookup fs p with _ | entry
  · intro e h; cases h; decide
  · cases entry with
    | file info => intro e h; cases h
    | permDenied => intro e h; cases h; decide

theorem createBackup_error_not_unsupported (fs : FileSys) (p : String) (now : Int) :
    ∀ e, createBackup fs p now = Except.error e →
      errorsIs e GoErr.errUnsupportedFormat = false := by
  unfold createBackup
  rcases fsLookup fs p with _ | entry
  · intro e h; cases h; decide
  · cases entry with
    | file info => intro e h; cases h
    | permDenied => intro e h; cases h; decide

theorem convertImage_error_not_unsupported (opts : ConvertOptions) (codec : Codec)
    (defaults : ExportParams) (now : Int) (fs : FileSys) (inPath outPath fmtL : String)
    (e : GoErr)
    (h : (convertImage opts codec defaults now fs inPath outPath fmtL).1 = some e) :
    errorsIs e GoErr.errUnsupportedFormat = false := by
  have hcor : errorsIs GoErr.errCorruptedImage GoErr.errUnsupportedFormat = false := by decide
  simp only [convertImage] at h
  split at h
  · cases h
    simp [errorsIs_unsup_wrap2, errorsIs_unsup_mk, hcor]
  · split at h
    · cases h
      simp [errorsIs_unsup_wrap, errorsIs_unsup_mk]
    · split at h
      · rename_i heq
        cases h
        rw [errorsIs_unsup_wrap]
        exact fsWriteFile_error_not_unsupported fs outPath _ now _ heq
      · cases h

theorem convertCodecStep_error_not_unsupported (opts : ConvertOptions) (codec : Codec)
    (defaults : ExportParams) (now : Int) (st : ConvState) (path fmtL : String)
    (stat : FileInfo) (r : ConversionResult) (key : String) (fx : List Effect)
    (hr : r.error = none) :
    ∀ e, (convertCodecStep opts codec defaults now st path fmtL stat r key fx).1.error = some e →
      errorsIs e GoErr.errUnsupportedFormat = false := by
  intro e h
  simp only [convertCodecStep] at h
  split at h
  · rename_i heq
    cases h
    exact convertImage_error_not_unsupported opts codec defaults now st.fs path r.newPath fmtL
      _ (by rw [heq])
  · rename_i heq
    split at h
    · split at h
      · simp [hr] at h
      · simp [hr] at h
    · split at h
      · rename_i heq2
        cases h
        rw [errorsIs_unsup_wrap]
        exact fsRemoveFile_error_not_unsupported _ path _ heq2
      · split at h
        · simp [hr] at h
        · simp [hr] at h

theorem convertBackupStep_error_not_unsupported (opts : ConvertOptions) (codec : Codec)
    (defaults : ExportParams) (now : Int) (st : ConvState) (path fmtL : String)
    (stat : FileInfo) (r : ConversionResult) (key : String) (fx : List Effect)
    (hr : r.error = none) :
    ∀ e, (convertBackupStep opts codec defaults now st path fmtL stat r key fx).1.error = some e →
      errorsIs e GoErr.errUnsupportedFormat = false := by
  intro e h
  simp only [convertBackupStep] at h
  split at h
  · split at h
    · rename_i heq
      cases h
      rw [errorsIs_unsup_wrap]
      exact createBackup_error_not_unsupported st.fs path now _ heq
    · exact convertCodecStep_error_not_unsupported opts codec defaults now _ path fmtL stat r
        key _ hr e h
  · exact convertCodecStep_error_not_unsupported opts codec defaults now st path fmtL stat r
      key fx hr e h

theorem convertAfterCache_error_not_unsupported (opts : ConvertOptions) (codec : Codec)
    (defaults : ExportParams) (now : Int) (st : ConvState) (path fmtL : String)
    (stat : FileInfo) (r : ConversionResult) (key : String) (fx : List Effect)
    (hr : r.error = none) :
    ∀ e, (convertAfterCache opts codec defaults now st path fmtL stat r key fx).1.error = some e →
      errorsIs e GoErr.errUnsupportedFormat = false := by
  obtain ⟨he, hnp, hfs, hmem⟩ := refreshFromExisting_frame opts now st r key fx
  intro e h
  simp only [convertAfterCache] at h
  by_cases hd : opts.dryRun = true
  · rw [if_pos hd] at h
    rw [he, hr] at h
    cases h
  · rw [if_neg hd] at h
    exact convertBackupStep_error_not_unsupported opts codec defaults now _ path fmtL stat _ key _
      (he.trans hr) e h

theorem convertCacheStep_error_not_unsupported (opts : ConvertOptions) (codec : Codec)
    (defaults : ExportParams) (now : Int) (st : ConvState) (path fmtL : String)
    (stat : FileInfo) (r : ConversionResult) (key : String) (oe : Option CacheEntry)
    (hr : r.error = none) :
    ∀ e, (convertCacheStep opts codec defaults now st path fmtL stat r key oe).1.error = some e →
      errorsIs e GoErr.errUnsupportedFormat = false := by
  cases oe with
  | none =>
      simp only [convertCacheStep]
      exact convertAfterCache_error_not_unsupported opts codec defaults now st path fmtL stat r
        key [] hr
  | some entry =>
      simp only [convertCacheStep]
      split
      · intro e h
        simp [hr] at h
      · exact convertAfterCache_error_not_unsupported opts codec defaults now _ path fmtL stat r
          key _ hr

/-- Convert never produces an unsupported-format-tagged error: no error
it constructs wraps appErrors.ErrUnsupportedFormat. -/
theorem convert_error_not_unsupported (opts : ConvertOptions) (codec : Codec)
    (defaults : ExportParams) (now : Int) (st : ConvState) (path fmt0 outP : String) :
    ∀ e, (convertWithOutputPath opts codec defaults now st path fmt0 outP).1.error = some e →
      errorsIs e GoErr.errUnsupportedFormat = false := by
  intro e h
  simp only [convertWithOutputPath] at h
  split at h
  · rename_i heq
    cases h
    rw [errorsIs_unsup_wrap]
    exact osStat_error_not_unsupported st.fs path _ heq
  · split at h
    · cases h
      exact errorsIs_unsup_mk _
    · exact convertCacheStep_error_not_unsupported opts codec defaults now st path
        (goToLower fmt0) _ _ _ _ rfl e h

theorem convertCodecStep_newPath (opts : ConvertOptions) (codec : Codec)
    (defaults : ExportParams) (now : Int) (st : ConvState) (path fmtL : String)
    (stat : FileInfo) (r : ConversionResult) (key : String) (fx : List Effect) :
    (convertCodecStep opts codec defaults now st path fmtL stat r key fx).1.newPath =
      r.newPath := by
  simp only [convertCodecStep]
  repeat' split
  all_goals rfl

theorem convertBackupStep_newPath (opts : ConvertOptions) (codec : Codec)
    (defaults : ExportParams) (now : Int) (st : ConvState) (path fmtL : String)
    (stat : FileInfo) (r : ConversionResult) (key : String) (fx : List Effect) :
    (convertBackupStep opts codec defaults now st path fmtL stat r key fx).1.newPath =
      r.newPath := by
  simp only [convertBackupStep]
  repeat' split
  all_goals first
    | rfl
    | apply convertCodecStep_newPath

theorem convertAfterCache_newPath (opts : ConvertOptions) (codec : Codec)
    (defaults : ExportParams) (now : Int) (st : ConvState) (path fmtL : String)
    (stat : FileInfo) (r : ConversionResult) (key : String) (fx : List Effect) :
    (convertAfterCache opts codec defaults now st path fmtL stat r key fx).1.newPath =
      r.newPath := by
  obtain ⟨he, hnp, hfs, hmem⟩ := refreshFromExisting_frame opts now st r key fx
  simp only [convertAfterCache]
  split
  · exact hnp
  · exact (convertBackupStep_newPath opts codec defaults now _ path fmtL stat _ key _).trans hnp

theorem convertCacheStep_newPath (opts : ConvertOptions) (codec : Codec)
    (defaults : ExportParams) (now : Int) (st : ConvState) (path fmtL : String)
    (stat : FileInfo) (r : ConversionResult) (key : String) (oe : Option CacheEntry) :
    (convertCacheStep opts codec defaults now st path fmtL stat r key oe).1.newPath =
      r.newPath := by
  cases oe with
  | none => exact convertAfterCache_newPath opts codec defaults now st path fmtL stat r key []
  | some entry =>
      simp only [convertCacheStep]
      split
      · rfl
      · exact convertAfterCache_newPath opts codec defaults now _ path fmtL stat r key _

/-- C10: for a target format outside the recognized set, getExportParams
silently falls back to JPEG and leaves the library default quality in
place (the configured quality is not applied); Convert never produces an
unsupported-format-tagged error; and with no explicit output path the
output lands at the source's base name with the unrecognized extension
appended. -/
theorem c10_unknown_format_fallback (defaults : ExportParams) (opts : ConvertOptions)
    (fmt : String)
    (h : fmt ∉ ["png", "jpg", "jpeg", "webp", "tiff", "gif", "avif", "heif"]) :
    ((getExportParams defaults opts fmt).format = ImageType.jpeg ∧
     (getExportParams defaults opts fmt).quality = defaults.quality) ∧
    (∀ (codec : Codec) (now : Int) (st : ConvState) (path outP : String) (e : GoErr),
      (convertWithOutputPath opts codec defaults now st path fmt outP).1.error = some e →
      errorsIs e GoErr.errUnsupportedFormat = false) ∧
    (∀ (codec : Codec) (now : Int) (st : ConvState) (path : String) (info : FileInfo),
      osStat st.fs path = Except.ok info →
      isAlreadyInFormat (getFileExtension path) (goToLower fmt) = false →
      (convertWithOutputPath opts codec defaults now st path fmt "").1.newPath =
        trimSuffix path (filepathExt path) ++ "." ++ goToLower fmt) := by
  refine ⟨?_, ?_, ?_⟩
  · simp only [getExportParams]
    split
    all_goals first
      | (refine ⟨rfl, ?_⟩; split <;> rfl)
      | simp at h
  · intro codec now st path outP e h2
    exact convert_error_not_unsupported opts codec defaults now st path fmt outP e h2
  · intro codec now st path info hstat hfmt2
    simp only [convertWithOutputPath, hstat, hfmt2]
    simp only [Bool.false_eq_true, if_false]
    rw [convertCacheStep_newPath]
    simp

/-- Witness for C10 at the unrecognized format "bmp". -/
theorem c10_unknown_format_fallback_witness :
    (((getExportParams exDefaults exOpts "bmp").format = ImageType.jpeg ∧
     (getExportParams exDefaults exOpts "bmp").quality = exDefaults.quality) ∧
    (∀ (codec : Codec) (now : Int) (st : ConvState) (path outP : String) (e : GoErr),
      (convertWithOutputPath exOpts codec exDefaults now st path "bmp" outP).1.error = some e →
      errorsIs e GoErr.errUnsupportedFormat = false) ∧
    (∀ (codec : Codec) (now : Int) (st : ConvState) (path : String) (info : FileInfo),
      osStat st.fs path = Except.ok info →
      isAlreadyInFormat (getFileExtension path) (goToLower "bmp") = false →
      (convertWithOutputPath exOpts codec exDefaults now st path "bmp" "").1.newPath =
        trimSuffix path (filepathExt path) ++ "." ++ goToLower "bmp")) :=
  c10_unknown_format_fallback exDefaults exOpts "bmp" (by decide)

/-! Claim C5: success-path cache lemmas. -/

theorem cacheLoad_store_self (c : Cache) (k : String) (e : CacheEntry) :
    cacheLoad (cacheStoreEntry c k e) k = some e := by
  induction c with
  | nil => simp [cacheStoreEntry, cacheLoad]
  | cons kv rest ih =>
      obtain ⟨q, e0⟩ := kv
      by_cases hq : q = k
      · simp [cacheStoreEntry, cacheLoad, hq]
      · simp [cacheStoreEntry, cacheLoad, hq, ih]

theorem fsLookup_fsSet_self (fs : FileSys) (p : String) (info : FileInfo) :
    fsLookup (fsSet fs p info) p = some (FsEntry.file info) := by
  induction fs with
  | nil => simp [fsSet, fsLookup]
  | cons kv rest ih =>
      obtain ⟨q, e0⟩ := kv
      by_cases hq : q = p
      · simp [fsSet, fsLookup, hq]
      · simp [fsSet, fsLookup, hq, ih]

theorem fsWriteFile_ok_lookup (fs : FileSys) (p : String) (size now : Int) (fs2 : FileSys)
    (h : fsWriteFile fs p size now = Except.ok fs2) :
    fsLookup fs2 p = some (FsEntry.file { size := size, modTime := now }) := by
  unfold fsWriteFile at h
  split at h
  · cases h
  · cases h
    exact fsLookup_fsSet_self fs p _

theorem isCacheValid_true_elim (opts : ConvertOptions) (fs : FileSys) (e : CacheEntry)
    (m : Int) (p : String) (h : isCacheValid opts fs e m p = true) :
    m ≤ e.lastModified ∧ e.configHash = getConfigHash opts := by
  unfold isCacheValid at h
  split at h
  · cases h
  · rename_i h1
    split at h
    · cases h
    · split at h
      · cases h
      · rename_i h2
        exact ⟨not_lt.mp h1, not_ne_iff.mp h2⟩

theorem isCacheValid_intro (opts : ConvertOptions) (fs : FileSys) (e : CacheEntry)
    (m : Int) (p : String) (h1 : m ≤ e.lastModified)
    (h2 : e.configHash = getConfigHash opts)
    (h3 : ∃ i, osStat fs p = Except.ok i) :
    isCacheValid opts fs e m p = true := by
  unfold isCacheValid
  rw [if_neg (not_lt.mpr h1)]
  obtain ⟨i, hi⟩ := h3
  rw [hi]
  simp [h2]

theorem convertImage_ok_written (opts : ConvertOptions) (codec : Codec)
    (defaults : ExportParams) (now : Int) (fs : FileSys) (inPath outPath fmtL : String)
    (fs2 : FileSys) (cfx : List Effect)
    (h : convertImage opts codec defaults now fs inPath outPath fmtL = (none, fs2, cfx)) :
    ∃ n : Int, fsLookup fs2 outPath = some (FsEntry.file { size := n, modTime := now }) := by
  simp only [convertImage] at h
  split at h
  · simp at h
  · split at h
    · simp at h
    · split at h
      · simp at h
      · rename_i heqW
        cases h
        exact ⟨_, fsWriteFile_ok_lookup fs outPath _ now _ heqW⟩

theorem convertCodecStep_success (opts : ConvertOptions) (codec : Codec)
    (defaults : ExportParams) (now : Int) (st : ConvState) (path fmtL : String)
    (stat : FileInfo) (r : ConversionResult) (key : String) (fx : List Effect)
    (hok : (convertCodecStep opts codec defaults now st path fmtL stat r key fx).1.error = none) :
    ∃ n : Int,
      (convertCodecStep opts codec defaults now st path fmtL stat r key fx).1.newSize = n ∧
      cacheLoad (convertCodecStep opts codec defaults now st path fmtL stat r key fx).2.1.cache
          key =
        some { outputPath := r.newPath, outputSize := n,
               lastModified := stat.modTime, configHash := getConfigHash opts } := by
  rcases hci : convertImage opts codec defaults now st.fs path r.newPath fmtL with ⟨oe2, fs2, cfx⟩
  cases oe2 with
  | some e0 =>
      simp only [convertCodecStep, hci] at hok
      simp at hok
  | none =>
      obtain ⟨n0, hlk⟩ :=
        convertImage_ok_written opts codec defaults now st.fs path r.newPath fmtL fs2 cfx hci
      have hos : osStat fs2 r.newPath = Except.ok { size := n0, modTime := now } := by
        simp [osStat, hlk]
      simp only [convertCodecStep, hci, hos] at hok ⊢
      by_cases hkeep : opts.keepOriginal = true
      · rw [if_pos hkeep]
        exact ⟨n0, rfl, by rw [cacheLoad_store_self]⟩
      · rw [if_neg hkeep] at hok ⊢
        rcases hrm : fsRemoveFile fs2 path with e1 | fs3
        · simp only [hrm] at hok
          simp at hok
        · simp only [hrm]
          exact ⟨n0, rfl, by rw [cacheLoad_store_self]⟩

theorem convertBackupStep_success (opts : ConvertOptions) (codec : Codec)
    (defaults : ExportParams) (now : Int) (st : ConvState) (path fmtL : String)
    (stat : FileInfo) (r : ConversionResult) (key : String) (fx : List Effect)
    (hok : (convertBackupStep opts codec defaults now st path fmtL stat r key fx).1.error =
      none) :
    ∃ n : Int,
      (convertBackupStep opts codec defaults now st path fmtL stat r key fx).1.newSize = n ∧
      cacheLoad (convertBackupStep opts codec defaults now st path fmtL stat r key fx).2.1.cache
          key =
        some { outputPath := r.newPath, outputSize := n,
               lastModified := stat.modTime, configHash := getConfigHash opts } := by
  simp only [convertBackupStep] at hok ⊢
  by_cases hb : opts.backup = true
  · rw [if_pos hb] at hok ⊢
    rcases hcb : createBackup st.fs path now with e0 | pr
    · simp only [hcb] at hok
      simp at hok
    · obtain ⟨fs2, bfx⟩ := pr
      simp only [hcb] at hok ⊢
      exact convertCodecStep_success opts codec defaults now _ path fmtL stat r key _ hok
  · rw [if_neg hb] at hok ⊢
    exact convertCodecStep_success opts codec defaults now st path fmtL stat r key fx hok

theorem convertAfterCache_success (opts : ConvertOptions) (codec : Codec)
    (defaults : ExportParams) (now : Int) (st : ConvState) (path fmtL : String)
    (stat : FileInfo) (r : ConversionResult) (key : String) (fx : List Effect)
    (hdry : opts.dryRun = false) (_hr : r.error = none)
    (hok : (convertAfterCache opts codec defaults now st path fmtL stat r key fx).1.error =
      none) :
    ∃ n : Int,
      (convertAfterCache opts codec defaults now st path fmtL stat r key fx).1.newSize = n ∧
      cacheLoad (convertAfterCache opts codec defaults now st path fmtL stat r key fx).2.1.cache
          key =
        some { outputPath := r.newPath, outputSize := n,
               lastModified := stat.modTime, configHash := getConfigHash opts } := by
  obtain ⟨he, hnp, hfs, hmem⟩ := refreshFromExisting_frame opts now st r key fx
  simp only [convertAfterCache, hdry, Bool.false_eq_true, if_false] at hok ⊢
  obtain ⟨n, h1, h2⟩ :=
    convertBackupStep_success opts codec defaults now _ path fmtL stat _ key _ hok
  rw [hnp] at h2
  exact ⟨n, h1, h2⟩

theorem convertCacheStep_success (opts : ConvertOptions) (codec : Codec)
    (defaults : ExportParams) (now : Int) (st : ConvState) (path fmtL : String)
    (stat : FileInfo) (r : ConversionResult) (key : String) (oe : Option CacheEntry)
    (hoe : cacheLoad st.cache key = oe)
    (hdry : opts.dryRun = false) (hr : r.error = none)
    (hok : (convertCacheStep opts codec defaults now st path fmtL stat r key oe).1.error =
      none) :
    ∃ entry : CacheEntry,
      cacheLoad (convertCacheStep opts codec defaults now st path fmtL stat r key oe).2.1.cache
          key = some entry ∧
      entry.outputSize =
        (convertCacheStep opts codec defaults now st path fmtL stat r key oe).1.newSize ∧
      entry.configHash = getConfigHash opts ∧
      stat.modTime ≤ entry.lastModified := by
  cases oe with
  | none =>
      simp only [convertCacheStep] at hok ⊢
      obtain ⟨n, hn, hl⟩ :=
        convertAfterCache_success opts codec defaults now st path fmtL stat r key [] hdry hr hok
      exact ⟨_, hl, by rw [hn], rfl, le_refl _⟩
  | some entry0 =>
      simp only [convertCacheStep] at hok ⊢
      by_cases hv : isCacheValid opts st.fs entry0 stat.modTime r.newPath = true
      · rw [if_pos hv]
        obtain ⟨hm, hc⟩ := isCacheValid_true_elim opts st.fs entry0 stat.modTime r.newPath hv
        exact ⟨entry0, hoe, rfl, hc, hm⟩
      · rw [if_neg hv] at hok ⊢
        obtain ⟨n, hn, hl⟩ :=
          convertAfterCache_success opts codec defaults now _ path fmtL stat r key _ hdry hr hok
        exact ⟨_, hl, by rw [hn], rfl, le_refl _⟩

/-- A successful non-dry-run Convert leaves a cache entry under its own
key whose recorded size is the result's NewSize, whose config hash is
current, and whose recorded modification time is at least the source's;
the result's output path is the explicit one or the derived one. -/
theorem convert_success_cache (opts : ConvertOptions) (codec : Codec)
    (defaults : ExportParams) (now : Int) (st : ConvState) (path fmt0 outP : String)
    (info : FileInfo)
    (hdry : opts.dryRun = false)
    (hstat : osStat st.fs path = Except.ok info)
    (hok : (convertWithOutputPath opts codec defaults now st path fmt0 outP).1.error = none) :
    ∃ entry : CacheEntry,
      cacheLoad (convertWithOutputPath opts codec defaults now st path fmt0 outP).2.1.cache
          (getCacheKey opts path (goToLower fmt0)) = some entry ∧
      entry.outputSize = (convertWithOutputPath opts codec defaults now st path fmt0 outP).1.newSize ∧
      entry.configHash = getConfigHash opts ∧
      info.modTime ≤ entry.lastModified ∧
      (convertWithOutputPath opts codec defaults now st path fmt0 outP).1.newPath =
        (if outP ≠ "" then outP else trimSuffix path (filepathExt path) ++ "." ++ goToLower fmt0) := by
  by_cases halready : isAlreadyInFormat (getFileExtension path) (goToLower fmt0) = true
  · exfalso
    simp [convertWithOutputPath, hstat, halready] at hok
  · have hfalse : isAlreadyInFormat (getFileExtension path) (goToLower fmt0) = false :=
      Bool.eq_false_iff.mpr halready
    have hnp : (convertWithOutputPath opts codec defaults now st path fmt0 outP).1.newPath =
        (if outP ≠ "" then outP
         else trimSuffix path (filepathExt path) ++ "." ++ goToLower fmt0) := by
      simp only [convertWithOutputPath, hstat, hfalse, Bool.false_eq_true, if_false]
      rw [convertCacheStep_newPath]
    simp only [convertWithOutputPath, hstat, hfalse, Bool.false_eq_true, if_false] at hok ⊢
    obtain ⟨entry, h1, h2, h3, h4⟩ :=
      convertCacheStep_success opts codec defaults now st path (goToLower fmt0) info _
        (getCacheKey opts path (goToLower fmt0)) _ rfl hdry rfl hok
    refine ⟨entry, h1, h2, h3, h4, ?_⟩
    rw [convertCacheStep_newPath]

/-- A second Convert that finds a valid cache entry for its key is a
pure cache hit: error-free, the cached size, no state change, no
effects. -/
theorem convert_second_hit (opts : ConvertOptions) (codec : Codec) (defaults : ExportParams)
    (now2 : Int) (st2 : ConvState) (path fmt outP : String) (info2 : FileInfo)
    (entry : CacheEntry)
    (hstat2 : osStat st2.fs path = Except.ok info2)
    (hfalse : isAlreadyInFormat (getFileExtension path) (goToLower fmt) = false)
    (hload2 : cacheLoad st2.cache (getCacheKey opts path (goToLower fmt)) = some entry)
    (hvalid : isCacheValid opts st2.fs entry info2.modTime
        (if outP ≠ "" then outP
         else trimSuffix path (filepathExt path) ++ "." ++ goToLower fmt) = true) :
    (convertWithOutputPath opts codec defaults now2 st2 path fmt outP).1.error = none ∧
    (convertWithOutputPath opts codec defaults now2 st2 path fmt outP).1.newSize =
      entry.outputSize ∧
    (convertWithOutputPath opts codec defaults now2 st2 path fmt outP).2.1 = st2 ∧
    (convertWithOutputPath opts codec defaults now2 st2 path fmt outP).2.2 = [] := by
  simp only [convertWithOutputPath, hstat2, hfalse, Bool.false_eq_true, if_false, hload2]
  simp only [convertCacheStep]
  split
  · rename_i houtP
    rw [if_pos houtP] at hvalid
    split
    · exact ⟨rfl, rfl, rfl, rfl⟩
    · rename_i hcontra
      exact absurd hvalid hcontra
  · rename_i houtP
    rw [if_neg houtP] at hvalid
    split
    · exact ⟨rfl, rfl, rfl, rfl⟩
    · rename_i hcontra
      exact absurd hvalid hcontra

/-- C5: if Convert succeeds on a file (no dry run) and is called again
for the same source path, format and output argument, with the source
still present and its modification time unchanged, the same quality and
max-dimension settings, the cache as the first call left it, and the
first call's output file still on disk, then the second call is a cache
hit: no codec invocation, no write, no deletion — no effects and no
state change at all — and an error-free result whose NewSize equals the
first call's NewSize. -/
theorem c5_second_convert_cache_hit (opts : ConvertOptions) (codec : Codec)
    (defaults : ExportParams) (now1 now2 : Int) (st st2 : ConvState)
    (path fmt outP : String) (info1 info2 oinfo : FileInfo)
    (hdry : opts.dryRun = false)
    (hstat1 : osStat st.fs path = Except.ok info1)
    (hok : (convertWithOutputPath opts codec defaults now1 st path fmt outP).1.error = none)
    (hcache : st2.cache =
      (convertWithOutputPath opts codec defaults now1 st path fmt outP).2.1.cache)
    (hstat2 : osStat st2.fs path = Except.ok info2)
    (hmod : info2.modTime = info1.modTime)
    (hout : osStat st2.fs
        (convertWithOutputPath opts codec defaults now1 st path fmt outP).1.newPath =
      Except.ok oinfo) :
    (convertWithOutputPath opts codec defaults now2 st2 path fmt outP).1.error = none ∧
    (convertWithOutputPath opts codec defaults now2 st2 path fmt outP).1.newSize =
      (convertWithOutputPath opts codec defaults now1 st path fmt outP).1.newSize ∧
    (convertWithOutputPath opts codec defaults now2 st2 path fmt outP).2.1 = st2 ∧
    (convertWithOutputPath opts codec defaults now2 st2 path fmt outP).2.2 = [] := by
  have halready : isAlreadyInFormat (getFileExtension path) (goToLower fmt) = false := by
    by_contra hcon
    have htrue : isAlreadyInFormat (getFileExtension path) (goToLower fmt) = true := by
      revert hcon
      cases isAlreadyInFormat (getFileExtension path) (goToLower fmt) <;> simp
    simp [convertWithOutputPath, hstat1, htrue] at hok
  obtain ⟨entry, hloadE, hsize, hcfg, hmle, hnp1⟩ :=
    convert_success_cache opts codec defaults now1 st path fmt outP info1 hdry hstat1 hok
  have hload2 : cacheLoad st2.cache (getCacheKey opts path (goToLower fmt)) = some entry := by
    rw [hcache]
    exact hloadE
  have hvalid : isCacheValid opts st2.fs entry info2.modTime
      (if outP ≠ "" then outP
       else trimSuffix path (filepathExt path) ++ "." ++ goToLower fmt) = true := by
    rw [← hnp1]
    refine isCacheValid_intro opts st2.fs entry info2.modTime _ ?_ hcfg ⟨oinfo, hout⟩
    rw [hmod]
    exact hmle
  obtain ⟨he2, hn2, hst2x, hfx2⟩ :=
    convert_second_hit opts codec defaults now2 st2 path fmt outP info2 entry hstat2 halready
      hload2 hvalid
  exact ⟨he2, by rw [hn2, hsize], hst2x, hfx2⟩

def c5st0 : ConvState :=
  { fs := [("a.png", FsEntry.file { size := 100, modTime := 5 })], cache := [] }

def c5run1 : ConversionResult × ConvState × List Effect :=
  convertWithOutputPath exOpts exCodec exDefaults 9 c5st0 "a.png" "jpg" ""

/-- Witness for C5: converting a.png to jpg, then again two ticks
later. -/
theorem c5_second_convert_cache_hit_witness :
    ((convertWithOutputPath exOpts exCodec exDefaults 11 c5run1.2.1 "a.png" "jpg" "").1.error =
      none ∧
    (convertWithOutputPath exOpts exCodec exDefaults 11 c5run1.2.1 "a.png" "jpg" "").1.newSize =
      (convertWithOutputPath exOpts exCodec exDefaults 9 c5st0 "a.png" "jpg" "").1.newSize ∧
    (convertWithOutputPath exOpts exCodec exDefaults 11 c5run1.2.1 "a.png" "jpg" "").2.1 =
      c5run1.2.1 ∧
    (convertWithOutputPath exOpts exCodec exDefaults 11 c5run1.2.1 "a.png" "jpg" "").2.2 = []) :=
  c5_second_convert_cache_hit exOpts exCodec exDefaults 9 11 c5st0 c5run1.2.1 "a.png" "jpg" ""
    { size := 100, modTime := 5 } { size := 100, modTime := 5 } { size := 42, modTime := 9 }
    rfl rfl rfl rfl rfl rfl rfl

end GoPix
